import Mathlib

/-!
Shallow embedding of the cineAventura application
(`peliculas/models.py`, `peliculas/views.py`).

The relational state is modelled by the structure `DB`: each Django model
relevant to the claims becomes a list of records, many-to-many tables become
lists of pairs.  Machine integers are `Nat`/`Int` (no overflow is relevant
here), querysets become list filters, `annotate(Avg/Count)` becomes explicit
sums and lengths, and `order_by` becomes an insertion sort with respect to a
decidable total relation.  Mean ratings are compared by integer
cross-multiplication (`sb * ca < sa * cb`), which on the sorted pools — whose
elements all have at least one contributing rating — coincides with the
rational comparison of means; the bridge is proved in the theorems below.
-/

namespace CineAventura

/-- One row of the `Calificacion` model: a rating of `pelicula` by the
user `usuario_id` with value `puntuacion` (Django stores an integer). -/
structure Calificacion where
  pelicula : Nat
  usuario_id : Nat
  puntuacion : Int
deriving DecidableEq

/-- The relational state of the application, restricted to the tables the
claims touch.  `generos` holds (id, nombre); `pelicula_generos` is the
many-to-many table between movies and genres; `favoritos`, `ver_despues`
and `historial` are (user id, movie id) relations. -/
structure DB where
  usuarios : List Nat
  peliculas : List Nat
  generos : List (Nat × String)
  pelicula_generos : List (Nat × Nat)
  calificaciones : List Calificacion
  favoritos : List (Nat × Nat)
  ver_despues : List (Nat × Nat)
  historial : List (Nat × Nat)
deriving DecidableEq

/-- ASCII case folding of a character list; models Django `__iexact`
comparison for the genre name (`String.toLower` on the stored name). -/
def lowerChars : List Char → List Char
  | [] => []
  | c :: l => c.toLower :: lowerChars l

/-- Model of the genre lookup (a first-match filter with the
case-insensitive `nombre__iexact` comparison): the id of the first genre
whose name case-insensitively equals `aventura`, if any. -/
def genero_aventura_id (db : DB) : Option Nat :=
  (db.generos.find? (fun g => decide (lowerChars g.2.data = "aventura".data))).map (fun g => g.1)

/-- The exclusion set (`peliculas_vistas` in the view): ids of movies the
user has favorited, rated, or has in the viewing history. -/
def peliculas_vistas (db : DB) (u : Nat) : List Nat :=
  (db.favoritos.filter (fun f => decide (f.1 = u))).map (fun f => f.2) ++
    (db.calificaciones.filter (fun c => decide (c.usuario_id = u))).map (fun c => c.pelicula) ++
    (db.historial.filter (fun h => decide (h.1 = u))).map (fun h => h.2)

/-- All ratings of movie `m` (the reverse relation `pelicula.calificaciones`). -/
def califs_de (db : DB) (m : Nat) : List Calificacion :=
  db.calificaciones.filter (fun c => decide (c.pelicula = m))

/-- Rating count of movie `m` (the `Count` annotation). -/
def total_califs (db : DB) (m : Nat) : Nat :=
  (califs_de db m).length

/-- Sum of the rating values of movie `m` (the numerator of `Avg`). -/
def suma_punt (db : DB) (m : Nat) : Int :=
  ((califs_de db m).map (fun c => c.puntuacion)).sum

/-- Rank key of a record: numerator of the mean, denominator of the mean
(a rating count), and a tie-break count.  Lists are ordered by mean
descending, then by the tie-break count descending. -/
def rankLe {α : Type} (f : α → Int × Nat × Nat) (a b : α) : Prop :=
  (f b).1 * max ((f a).2.1 : Int) 1 < (f a).1 * max ((f b).2.1 : Int) 1 ∨
    ((f a).1 * max ((f b).2.1 : Int) 1 = (f b).1 * max ((f a).2.1 : Int) 1 ∧
      (f b).2.2 ≤ (f a).2.2)

instance {α : Type} (f : α → Int × Nat × Nat) : DecidableRel (rankLe f) := fun _ _ => by
  unfold rankLe
  infer_instance

/-- Rank key of the category pool: mean of all ratings descending, then
rating count descending (the two-key descending `order_by` of the view). -/
def clave_genero (db : DB) (m : Nat) : Int × Nat × Nat :=
  (suma_punt db m, total_califs db m, total_califs db m)

/-- Candidates of the category pool: movies in the genre `g`, not in the
exclusion set, with at least one rating (`total_calificaciones__gte=1`). -/
def candidatas_genero (db : DB) (u g : Nat) : List Nat :=
  db.peliculas.filter (fun m =>
    decide ((m, g) ∈ db.pelicula_generos) &&
      !(decide (m ∈ peliculas_vistas db u)) &&
      decide (1 ≤ total_califs db m))

/-- The category pool `recomendaciones_genero` of the view: the candidates
sorted by mean rating descending then rating count descending, truncated to
`limite / 2`. -/
def recomendaciones_genero (db : DB) (u g : Nat) (limite : Nat) : List Nat :=
  (List.insertionSort (rankLe (clave_genero db)) (candidatas_genero db u g)).take (limite / 2)

/-- The user's favorited movies that belong to genre `g`
(`usuario.peliculas_favoritas.filter(generos=genero_aventura)`). -/
def favoritas_genero (db : DB) (u g : Nat) : List Nat :=
  ((db.favoritos.filter (fun f => decide (f.1 = u))).map (fun f => f.2)).filter
    (fun m => decide ((m, g) ∈ db.pelicula_generos))

/-- Overlap score (`coincidencias`) of user `v`: how many ratings `v` has
on movies the requesting user favorited in genre `g` (the `Count` over the
join rows). -/
def coincidencias (db : DB) (u g v : Nat) : Nat :=
  (db.calificaciones.filter (fun c =>
    decide (c.usuario_id = v) && decide (c.pelicula ∈ favoritas_genero db u g))).length

/-- Rank key for similar users: `coincidencias` descending only. -/
def clave_similares (db : DB) (u g v : Nat) : Int × Nat × Nat :=
  (0, 0, coincidencias db u g v)

/-- Similar users (`usuarios_similares`): users other than `u` with at
least one rating on a favorited genre movie, ordered by `coincidencias`
descending, first five. -/
def usuarios_similares (db : DB) (u g : Nat) : List Nat :=
  (List.insertionSort (rankLe (clave_similares db u g))
    (db.usuarios.filter (fun v =>
      !(decide (v = u)) && decide (1 ≤ coincidencias db u g v)))).take 5

/-- The join rows behind the collaborative pool for movie `m`: ratings of
`m` by one of the similar users with value at least 7.  Both the filter and
the `Avg` annotation of the view range over exactly these rows. -/
def califs_colab (db : DB) (sim : List Nat) (m : Nat) : List Calificacion :=
  db.calificaciones.filter (fun c =>
    decide (c.pelicula = m) && decide (c.usuario_id ∈ sim) && decide (7 ≤ c.puntuacion))

/-- Rank key of the collaborative pool: mean of the qualifying peer
ratings descending, no tie-break (the one-key descending `order_by`). -/
def clave_colab (db : DB) (sim : List Nat) (m : Nat) : Int × Nat × Nat :=
  (((califs_colab db sim m).map (fun c => c.puntuacion)).sum, (califs_colab db sim m).length, 0)

/-- Candidates of the collaborative pool: genre movies with at least one
qualifying peer rating, not in the exclusion set. -/
def candidatas_colab (db : DB) (u g : Nat) (sim : List Nat) : List Nat :=
  db.peliculas.filter (fun m =>
    decide ((m, g) ∈ db.pelicula_generos) &&
      decide (1 ≤ (califs_colab db sim m).length) &&
      !(decide (m ∈ peliculas_vistas db u)))

/-- The collaborative pool `recomendaciones_colaborativas` of the view:
the collaborative candidates sorted by peer mean descending, truncated to
`limite / 2`. -/
def recomendaciones_colaborativas (db : DB) (u g : Nat) (limite : Nat) : List Nat :=
  (List.insertionSort (rankLe (clave_colab db (usuarios_similares db u g)))
    (candidatas_colab db u g (usuarios_similares db u g))).take (limite / 2)

/-- The de-duplication loop of the view: `seen` is the `ids_vistos` set,
each movie is kept if its id has not been seen and is then marked seen. -/
def dedup_first_aux (seen : List Nat) : List Nat → List Nat
  | [] => []
  | m :: l => if m ∈ seen then dedup_first_aux seen l else m :: dedup_first_aux (m :: seen) l

/-- The full recommendation function `obtener_recomendaciones_aventura`:
empty when the genre `aventura` does not exist, otherwise the two pools
concatenated, de-duplicated keeping first occurrences, truncated to
`limite`. -/
def obtener_recomendaciones_aventura (db : DB) (u : Nat) (limite : Nat) : List Nat :=
  match genero_aventura_id db with
  | none => []
  | some g =>
      (dedup_first_aux [] (recomendaciones_genero db u g limite ++
        recomendaciones_colaborativas db u g limite)).take limite

/-- Mean value `s / c` as a rational number; `Avg` of a rating multiset
with sum `s` and cardinality `c`. -/
def media (s : Int) (c : Nat) : Rat :=
  (s : Rat) / (c : Rat)

/-- Mean of all ratings of movie `m` (the `promedio` annotation of the
category pool). -/
def media_genero (db : DB) (m : Nat) : Rat :=
  media (suma_punt db m) (total_califs db m)

/-- Mean of the qualifying peer ratings of movie `m` (the `promedio`
annotation of the collaborative pool). -/
def media_colab (db : DB) (sim : List Nat) (m : Nat) : Rat :=
  media ((clave_colab db sim m).1) ((clave_colab db sim m).2.1)

/-- The order of the category pool as the spec states it: mean rating
descending, ties by rating count descending. -/
def orden_genero (db : DB) (a b : Nat) : Prop :=
  media_genero db b < media_genero db a ∨
    (media_genero db a = media_genero db b ∧ total_califs db b ≤ total_califs db a)

/-- The order of the collaborative pool as the spec states it: mean rating
descending. -/
def orden_colab (db : DB) (sim : List Nat) (a b : Nat) : Prop :=
  media_colab db sim b ≤ media_colab db sim a

/-- Model of the `update_or_create` call keyed on the pair
(pelicula, usuario) with the new `puntuacion` as default: update the
matching row in place if one exists, otherwise insert a new row. -/
def update_or_create (l : List Calificacion) (m u : Nat) (p : Int) : List Calificacion :=
  if l.any (fun c => decide (c.pelicula = m) && decide (c.usuario_id = u)) then
    l.map (fun c =>
      if c.pelicula = m ∧ c.usuario_id = u then { c with puntuacion := p } else c)
  else ⟨m, u, p⟩ :: l

/-- The `agregar_calificacion` view: 404 when the movie does not exist,
reject scores outside `[1, 10]` leaving the state unchanged, otherwise
update-or-create the rating of `(m, u)`. -/
def agregar_calificacion (db : DB) (u m : Nat) (p : Int) : DB :=
  if m ∈ db.peliculas then
    if 1 ≤ p ∧ p ≤ 10 then
      { db with calificaciones := update_or_create db.calificaciones m u p }
    else db
  else db

/-- Number of rating rows for the pair (user `u`, movie `m`); the
`unique_together` constraint keeps it at most one. -/
def cuenta_par (db : DB) (u m : Nat) : Nat :=
  (db.calificaciones.filter (fun c =>
    decide (c.pelicula = m) && decide (c.usuario_id = u))).length

/-- The toggle shape shared by `agregar_favoritos` and
`agregar_ver_despues`: remove the pair when present, prepend it when
absent. -/
def toggle_par (l : List (Nat × Nat)) (q : Nat × Nat) : List (Nat × Nat) :=
  if q ∈ l then l.filter (fun f => decide (f ≠ q)) else q :: l

/-- The `agregar_favoritos` view: toggle membership of `(u, m)` in the
favorites relation (404 when the movie does not exist). -/
def agregar_favoritos (db : DB) (u m : Nat) : DB :=
  if m ∈ db.peliculas then
    if (u, m) ∈ db.favoritos then
      { db with favoritos := db.favoritos.filter (fun f => decide (f ≠ (u, m))) }
    else { db with favoritos := (u, m) :: db.favoritos }
  else db

/-- The `agregar_ver_despues` view: toggle membership of `(u, m)` in the
watch-later relation (404 when the movie does not exist). -/
def agregar_ver_despues (db : DB) (u m : Nat) : DB :=
  if m ∈ db.peliculas then
    if (u, m) ∈ db.ver_despues then
      { db with ver_despues := db.ver_despues.filter (fun f => decide (f ≠ (u, m))) }
    else { db with ver_despues := (u, m) :: db.ver_despues }
  else db

/-- The `WatchParty` model restricted to the fields the claims touch. -/
structure WatchParty where
  anfitrion : Nat
  participantes : List Nat
  max_participantes : Nat
deriving DecidableEq

instance {α : Type} (f : α → Int × Nat × Nat) : IsTotal α (rankLe f) where
  total a b := by
    unfold rankLe
    rcases lt_trichotomy ((f a).1 * max ((f b).2.1 : Int) 1)
        ((f b).1 * max ((f a).2.1 : Int) 1) with h | h | h
    · exact Or.inr (Or.inl h)
    · rcases Nat.le_total ((f b).2.2) ((f a).2.2) with h2 | h2
      · exact Or.inl (Or.inr ⟨h, h2⟩)
      · exact Or.inr (Or.inr ⟨h.symm, h2⟩)
    · exact Or.inl (Or.inl h)

instance {α : Type} (f : α → Int × Nat × Nat) : IsTrans α (rankLe f) where
  trans a b c hab hbc := by
    have hda : (0 : Int) < max ((f a).2.1 : Int) 1 := lt_of_lt_of_le one_pos (le_max_right _ 1)
    have hdb : (0 : Int) < max ((f b).2.1 : Int) 1 := lt_of_lt_of_le one_pos (le_max_right _ 1)
    have hdc : (0 : Int) < max ((f c).2.1 : Int) 1 := lt_of_lt_of_le one_pos (le_max_right _ 1)
    unfold rankLe at *
    set sa := (f a).1 with hsa
    set sb := (f b).1 with hsb
    set sc := (f c).1 with hsc
    set da := max ((f a).2.1 : Int) 1 with hdaeq
    set db := max ((f b).2.1 : Int) 1 with hdbeq
    set dc := max ((f c).2.1 : Int) 1 with hdceq
    rcases hab with h1 | ⟨h1, h1t⟩ <;> rcases hbc with h2 | ⟨h2, h2t⟩
    · refine Or.inl ?_
      have m1 := mul_lt_mul_of_pos_right h1 hdc
      have m2 := mul_lt_mul_of_pos_right h2 hda
      have : sc * da * db < sa * dc * db := by nlinarith
      exact lt_of_mul_lt_mul_right this hdb.le
    · refine Or.inl ?_
      have m1 := mul_lt_mul_of_pos_right h1 hdc
      have m2 : sb * dc * da = sc * db * da := by rw [h2]
      have : sc * da * db < sa * dc * db := by nlinarith
      exact lt_of_mul_lt_mul_right this hdb.le
    · refine Or.inl ?_
      have m1 : sa * db * dc = sb * da * dc := by rw [h1]
      have m2 := mul_lt_mul_of_pos_right h2 hda
      have : sc * da * db < sa * dc * db := by nlinarith
      exact lt_of_mul_lt_mul_right this hdb.le
    · refine Or.inr ⟨?_, le_trans h2t h1t⟩
      have : sa * dc * db = sc * da * db := by linear_combination dc * h1 + da * h2
      exact mul_right_cancel₀ (ne_of_gt hdb) this

/-- The model method `WatchParty.puede_unirse`: true when the participant
count is still below `max_participantes`. -/
def puede_unirse (wp : WatchParty) : Bool :=
  wp.participantes.length < wp.max_participantes

/-- The `unirse_watch_party` view: reject when the party is full, otherwise
add the requester unless already a participant. -/
def unirse_watch_party (wp : WatchParty) (u : Nat) : WatchParty :=
  if puede_unirse wp then
    if u ∈ wp.participantes then wp
    else { wp with participantes := u :: wp.participantes }
  else wp

/-- The `salir_watch_party` view: remove the requester from the participant
set when present. -/
def salir_watch_party (wp : WatchParty) (u : Nat) : WatchParty :=
  if u ∈ wp.participantes then
    { wp with participantes := wp.participantes.filter (fun v => decide (v ≠ u)) }
  else wp

/-- Concrete state: two adventure movies rated by user 2; user 1 has no
favorites, ratings, or history. -/
def dbDemo : DB :=
  { usuarios := [1, 2]
    peliculas := [10, 11]
    generos := [(1, "Aventura")]
    pelicula_generos := [(10, 1), (11, 1)]
    calificaciones := [⟨10, 2, 8⟩, ⟨11, 2, 9⟩]
    favoritos := []
    ver_despues := []
    historial := [] }

/-- Concrete state: user 1 favorited adventure movie 10; users 2 and 3
rated it, so both are similar users of user 1. -/
def dbPar : DB :=
  { usuarios := [1, 2, 3]
    peliculas := [10, 11, 12]
    generos := [(1, "aventura")]
    pelicula_generos := [(10, 1), (11, 1), (12, 1)]
    calificaciones := [⟨10, 2, 9⟩, ⟨11, 2, 8⟩, ⟨12, 2, 7⟩, ⟨10, 3, 6⟩]
    favoritos := [(1, 10)]
    ver_despues := []
    historial := [] }

/-- Concrete state with no genres at all: the `aventura` lookup fails. -/
def dbVacia : DB :=
  { usuarios := []
    peliculas := []
    generos := []
    pelicula_generos := []
    calificaciones := []
    favoritos := []
    ver_despues := []
    historial := [] }

/-- Concrete watch party at capacity: two participants, maximum two. -/
def wpDemo : WatchParty :=
  { anfitrion := 1
    participantes := [2, 3]
    max_participantes := 2 }

/-! Helper lemmas about the de-duplication loop. -/

theorem mem_of_mem_dedup_first_aux {m : Nat} :
    ∀ {seen l : List Nat}, m ∈ dedup_first_aux seen l → m ∈ l := by
  intro seen l
  induction l generalizing seen with
  | nil => intro h; simpa [dedup_first_aux] using h
  | cons a l ih =>
    intro h
    unfold dedup_first_aux at h
    by_cases ha : a ∈ seen
    · rw [if_pos ha] at h
      exact List.mem_cons_of_mem a (ih h)
    · rw [if_neg ha] at h
      rcases List.mem_cons.mp h with h | h
      · exact h ▸ List.mem_cons_self a l
      · exact List.mem_cons_of_mem a (ih h)

theorem not_mem_dedup_first_aux {m : Nat} :
    ∀ {seen l : List Nat}, m ∈ seen → m ∉ dedup_first_aux seen l := by
  intro seen l
  induction l generalizing seen with
  | nil => intro _; simp [dedup_first_aux]
  | cons a l ih =>
    intro hm
    unfold dedup_first_aux
    by_cases ha : a ∈ seen
    · rw [if_pos ha]; exact ih hm
    · rw [if_neg ha]
      intro hc
      rcases List.mem_cons.mp hc with h | h
      · exact ha (h ▸ hm)
      · exact ih (List.mem_cons_of_mem a hm) h

theorem nodup_dedup_first_aux : ∀ (seen l : List Nat), (dedup_first_aux seen l).Nodup := by
  intro seen l
  induction l generalizing seen with
  | nil => simp [dedup_first_aux]
  | cons a l ih =>
    unfold dedup_first_aux
    by_cases ha : a ∈ seen
    · rw [if_pos ha]; exact ih seen
    · rw [if_neg ha]
      exact List.nodup_cons.mpr ⟨not_mem_dedup_first_aux (List.mem_cons_self a seen), ih (a :: seen)⟩

theorem length_dedup_first_aux_le : ∀ (seen l : List Nat),
    (dedup_first_aux seen l).length ≤ l.length := by
  intro seen l
  induction l generalizing seen with
  | nil => simp [dedup_first_aux]
  | cons a l ih =>
    unfold dedup_first_aux
    by_cases ha : a ∈ seen
    · rw [if_pos ha]
      exact le_trans (ih seen) (Nat.le_succ _)
    · rw [if_neg ha]
      simpa using Nat.succ_le_succ (ih (a :: seen))

/-! Membership characterisations of the two candidate pools. -/

theorem mem_candidatas_genero {db : DB} {u g m : Nat} :
    m ∈ candidatas_genero db u g ↔
      m ∈ db.peliculas ∧ (m, g) ∈ db.pelicula_generos ∧ m ∉ peliculas_vistas db u ∧
        1 ≤ total_califs db m := by
  simp only [candidatas_genero, List.mem_filter, Bool.and_eq_true, decide_eq_true_eq,
    Bool.not_eq_true', decide_eq_false_iff_not]
  tauto

theorem mem_candidatas_colab {db : DB} {u g m : Nat} {sim : List Nat} :
    m ∈ candidatas_colab db u g sim ↔
      m ∈ db.peliculas ∧ (m, g) ∈ db.pelicula_generos ∧ m ∉ peliculas_vistas db u ∧
        ∃ c ∈ db.calificaciones, c.pelicula = m ∧ c.usuario_id ∈ sim ∧ 7 ≤ c.puntuacion := by
  simp only [candidatas_colab, List.mem_filter, Bool.and_eq_true, decide_eq_true_eq,
    Bool.not_eq_true', decide_eq_false_iff_not]
  constructor
  · rintro ⟨hp, ⟨hg, hlen⟩, hnv⟩
    refine ⟨hp, hg, hnv, ?_⟩
    obtain ⟨c, hc⟩ := List.length_pos_iff_exists_mem.mp hlen
    have := List.mem_filter.mp hc
    simp only [Bool.and_eq_true, decide_eq_true_eq] at this
    exact ⟨c, this.1, this.2.1.1, this.2.1.2, this.2.2⟩
  · rintro ⟨hp, hg, hnv, c, hcmem, hcm, hcsim, hc7⟩
    refine ⟨hp, ⟨hg, ?_⟩, hnv⟩
    refine List.length_pos_iff_exists_mem.mpr ⟨c, ?_⟩
    refine List.mem_filter.mpr ⟨hcmem, ?_⟩
    simp only [Bool.and_eq_true, decide_eq_true_eq]
    exact ⟨⟨hcm, hcsim⟩, hc7⟩

theorem mem_recomendaciones_genero {db : DB} {u g limite m : Nat}
    (h : m ∈ recomendaciones_genero db u g limite) : m ∈ candidatas_genero db u g := by
  have h1 := List.take_subset _ _ h
  exact (List.perm_insertionSort (rankLe (clave_genero db)) (candidatas_genero db u g)).mem_iff.mp h1

theorem mem_recomendaciones_colaborativas {db : DB} {u g limite m : Nat}
    (h : m ∈ recomendaciones_colaborativas db u g limite) :
    m ∈ candidatas_colab db u g (usuarios_similares db u g) := by
  have h1 := List.take_subset _ _ h
  exact (List.perm_insertionSort _ _).mem_iff.mp h1

/-! Bridging the integer cross-multiplication order with the rational means. -/

theorem media_lt_media {sa sb : Int} {ca cb : Nat} (ha : 1 ≤ ca) (hb : 1 ≤ cb) :
    media sb cb < media sa ca ↔ sb * (ca : Int) < sa * (cb : Int) := by
  unfold media
  rw [div_lt_div_iff (by exact_mod_cast hb) (by exact_mod_cast ha)]
  constructor
  · intro h; exact_mod_cast h
  · intro h; exact_mod_cast h

theorem media_eq_media {sa sb : Int} {ca cb : Nat} (ha : 1 ≤ ca) (hb : 1 ≤ cb) :
    media sa ca = media sb cb ↔ sa * (cb : Int) = sb * (ca : Int) := by
  unfold media
  rw [div_eq_div_iff (by positivity) (by positivity)]
  · constructor
    · intro h; exact_mod_cast h
    · intro h; exact_mod_cast h

theorem rankLe_iff_orden_genero {db : DB} {a b : Nat}
    (ha : 1 ≤ total_califs db a) (hb : 1 ≤ total_califs db b) :
    rankLe (clave_genero db) a b ↔ orden_genero db a b := by
  have hma : max ((total_califs db a) : Int) 1 = (total_califs db a : Int) :=
    max_eq_left (by exact_mod_cast ha)
  have hmb : max ((total_califs db b) : Int) 1 = (total_califs db b : Int) :=
    max_eq_left (by exact_mod_cast hb)
  unfold rankLe clave_genero orden_genero media_genero
  rw [hma, hmb, media_lt_media ha hb, media_eq_media ha hb]

theorem rankLe_iff_orden_colab {db : DB} {sim : List Nat} {a b : Nat}
    (ha : 1 ≤ (califs_colab db sim a).length) (hb : 1 ≤ (califs_colab db sim b).length) :
    rankLe (clave_colab db sim) a b ↔ orden_colab db sim a b := by
  have hca : (clave_colab db sim a).2.1 = (califs_colab db sim a).length := rfl
  have hcb : (clave_colab db sim b).2.1 = (califs_colab db sim b).length := rfl
  have hma : max (((clave_colab db sim a).2.1) : Int) 1 = ((califs_colab db sim a).length : Int) := by
    rw [hca]; exact max_eq_left (by exact_mod_cast ha)
  have hmb : max (((clave_colab db sim b).2.1) : Int) 1 = ((califs_colab db sim b).length : Int) := by
    rw [hcb]; exact max_eq_left (by exact_mod_cast hb)
  unfold rankLe
  rw [hma, hmb]
  unfold orden_colab media_colab
  have hle : media ((clave_colab db sim b).1) ((clave_colab db sim b).2.1) ≤
      media ((clave_colab db sim a).1) ((clave_colab db sim a).2.1) ↔
      (clave_colab db sim b).1 * ((califs_colab db sim a).length : Int) ≤
        (clave_colab db sim a).1 * ((califs_colab db sim b).length : Int) := by
    unfold media
    rw [div_le_div_iff (by exact_mod_cast hb) (by exact_mod_cast ha)]
    constructor
    · intro h; exact_mod_cast h
    · intro h; exact_mod_cast h
  rw [hle]
  constructor
  · rintro (h | ⟨h, _⟩)
    · exact le_of_lt h
    · exact le_of_eq h.symm
  · intro h
    rcases lt_or_eq_of_le h with h | h
    · exact Or.inl h
    · exact Or.inr ⟨h.symm, le_refl _⟩

theorem mem_candidatas_colab_len {db : DB} {u g m : Nat} {sim : List Nat}
    (h : m ∈ candidatas_colab db u g sim) : 1 ≤ (califs_colab db sim m).length := by
  have h2 := List.mem_filter.mp h
  simp only [Bool.and_eq_true, decide_eq_true_eq] at h2
  exact h2.2.1.2

/-- Claim C1: no recommended item lies in the exclusion set (the union of
the user's favorited, rated, and viewed movie ids); moreover both the
category pool and the collaborative pool already exclude every member of
that union. -/
theorem C1_sin_vistas (db : DB) (u limite : Nat) :
    (∀ m ∈ obtener_recomendaciones_aventura db u limite, m ∉ peliculas_vistas db u) ∧
    (∀ g m, m ∈ recomendaciones_genero db u g limite → m ∉ peliculas_vistas db u) ∧
    (∀ g m, m ∈ recomendaciones_colaborativas db u g limite → m ∉ peliculas_vistas db u) := by
  have hgen : ∀ g m, m ∈ recomendaciones_genero db u g limite → m ∉ peliculas_vistas db u := by
    intro g m hm
    exact (mem_candidatas_genero.mp (mem_recomendaciones_genero hm)).2.2.1
  have hcol : ∀ g m, m ∈ recomendaciones_colaborativas db u g limite →
      m ∉ peliculas_vistas db u := by
    intro g m hm
    exact (mem_candidatas_colab.mp (mem_recomendaciones_colaborativas hm)).2.2.1
  refine ⟨?_, hgen, hcol⟩
  intro m hm
  rcases hgopt : genero_aventura_id db with _ | g
  · simp only [obtener_recomendaciones_aventura, hgopt] at hm
    exact absurd hm (List.not_mem_nil m)
  · simp only [obtener_recomendaciones_aventura, hgopt] at hm
    have h2 := mem_of_mem_dedup_first_aux (List.take_subset _ _ hm)
    rcases List.mem_append.mp h2 with h3 | h3
    · exact hgen g m h3
    · exact hcol g m h3

/-- Claim C1 witness: in `dbDemo`, movie 11 is recommended to user 1 and is
indeed not among that user's favorited, rated, or viewed movies. -/
theorem C1_sin_vistas_witness : 11 ∉ peliculas_vistas dbDemo 1 :=
  (C1_sin_vistas dbDemo 1 12).1 11 (by decide)

/-- Claim C2 counterexample: user 1 of `dbDemo` has no favorites, ratings,
or history (the exclusion set is empty), the genre exists, and yet the
recommendation function returns a non-empty sequence — refuting the claim
that a user without favorites, ratings, or history gets an empty result. -/
theorem C2_vacio_counterexample :
    peliculas_vistas dbDemo 1 = [] ∧
      (genero_aventura_id dbDemo).isSome = true ∧
      obtener_recomendaciones_aventura dbDemo 1 12 ≠ [] := by
  decide

/-- Claim C2 as amended: if the genre `aventura` does not exist the
function returns the empty sequence; if the user has no favorites, ratings,
or history, the function still returns normally — the collaborative pool is
empty and the result is exactly the de-duplicated category pool (which may
be non-empty), truncated to the limit. -/
theorem C2_vacio_amended (db : DB) (u limite : Nat) :
    (genero_aventura_id db = none → obtener_recomendaciones_aventura db u limite = []) ∧
    (peliculas_vistas db u = [] →
      (∀ g, recomendaciones_colaborativas db u g limite = []) ∧
      (∀ g, genero_aventura_id db = some g →
        obtener_recomendaciones_aventura db u limite =
          (dedup_first_aux [] (recomendaciones_genero db u g limite)).take limite)) := by
  constructor
  · intro hg
    simp only [obtener_recomendaciones_aventura, hg]
  · intro hv
    have hfav : db.favoritos.filter (fun f => decide (f.1 = u)) = [] := by
      unfold peliculas_vistas at hv
      rcases List.append_eq_nil.mp hv with ⟨hv1, _⟩
      rcases List.append_eq_nil.mp hv1 with ⟨hv2, _⟩
      exact List.map_eq_nil.mp hv2
    have hcolab : ∀ g, recomendaciones_colaborativas db u g limite = [] := by
      intro g
      have hfavg : favoritas_genero db u g = [] := by
        unfold favoritas_genero
        rw [hfav]
        rfl
      have hco : ∀ v, coincidencias db u g v = 0 := by
        intro v
        unfold coincidencias
        rw [List.length_eq_zero, List.filter_eq_nil]
        intro c _
        simp [hfavg]
      have hsim : usuarios_similares db u g = [] := by
        unfold usuarios_similares
        have hfil : db.usuarios.filter
            (fun v => !(decide (v = u)) && decide (1 ≤ coincidencias db u g v)) = [] := by
          rw [List.filter_eq_nil]
          intro v _
          simp [hco v]
        rw [hfil]
        rfl
      have hcand : candidatas_colab db u g (usuarios_similares db u g) = [] := by
        rw [hsim]
        unfold candidatas_colab
        rw [List.filter_eq_nil]
        intro m _
        have : califs_colab db [] m = [] := by
          unfold califs_colab
          rw [List.filter_eq_nil]
          intro c _
          simp
        simp [this]
      unfold recomendaciones_colaborativas
      rw [hsim] at hcand ⊢
      rw [hcand]
      simp
    refine ⟨hcolab, ?_⟩
    intro g hg
    simp only [obtener_recomendaciones_aventura, hg, hcolab g, List.append_nil]

/-- Claim C2 amended witness: with no genres the result is empty, and for
the activity-free user 1 of `dbDemo` the collaborative pool is empty. -/
theorem C2_vacio_amended_witness :
    obtener_recomendaciones_aventura dbVacia 1 12 = [] ∧
      recomendaciones_colaborativas dbDemo 1 1 12 = [] :=
  ⟨(C2_vacio_amended dbVacia 1 12).1 (by decide),
    ((C2_vacio_amended dbDemo 1 12).2 (by decide)).1 1⟩

/-- Claim C6: the recommendation list never exceeds the requested limit. -/
theorem C6_longitud_limite (db : DB) (u limite : Nat) :
    (obtener_recomendaciones_aventura db u limite).length ≤ limite := by
  rcases hgopt : genero_aventura_id db with _ | g
  · simp [obtener_recomendaciones_aventura, hgopt]
  · simp only [obtener_recomendaciones_aventura, hgopt]
    rw [List.length_take]
    exact min_le_left _ _

/-- Claim C3: the category pool consists exactly of the movies of the
target genre outside the exclusion set with at least one rating —
membership is characterised — arranged in an order sorted by mean rating
descending then rating count descending, truncated to `limite / 2`. -/
theorem C3_pool_genero (db : DB) (u limite g : Nat)
    (hg : genero_aventura_id db = some g) :
    (∀ m, m ∈ candidatas_genero db u g ↔
        m ∈ db.peliculas ∧ (m, g) ∈ db.pelicula_generos ∧ m ∉ peliculas_vistas db u ∧
          1 ≤ total_califs db m) ∧
    ∃ l : List Nat, l.Perm (candidatas_genero db u g) ∧ l.Sorted (orden_genero db) ∧
      recomendaciones_genero db u g limite = l.take (limite / 2) := by
  refine ⟨fun m => mem_candidatas_genero, ?_⟩
  refine ⟨List.insertionSort (rankLe (clave_genero db)) (candidatas_genero db u g),
    List.perm_insertionSort _ _, ?_, rfl⟩
  have hs := List.sorted_insertionSort (rankLe (clave_genero db)) (candidatas_genero db u g)
  refine List.Pairwise.imp_of_mem ?_ hs
  intro a b hamem hbmem hr
  have ha := (mem_candidatas_genero.mp ((List.perm_insertionSort _ _).mem_iff.mp hamem)).2.2.2
  have hb := (mem_candidatas_genero.mp ((List.perm_insertionSort _ _).mem_iff.mp hbmem)).2.2.2
  exact (rankLe_iff_orden_genero ha hb).mp hr

/-- Claim C3 witness: in `dbDemo` movie 11 is a category-pool candidate for
user 1 of genre 1, obtained through the membership characterisation. -/
theorem C3_pool_genero_witness : 11 ∈ candidatas_genero dbDemo 1 1 :=
  ((C3_pool_genero dbDemo 1 12 1 (by decide)).1 11).mpr (by decide)

/-- Claim C4: the collaborative pool is built from at most five users other
than the requester, each of whom rated one of the requester's favorited
genre movies; the pool consists of the genre movies having a rating of at
least 7 by one of those peers, outside the exclusion set, arranged in an
order sorted by (peer) mean rating descending, truncated to `limite / 2`. -/
theorem C4_pool_colaborativo (db : DB) (u limite g : Nat)
    (hg : genero_aventura_id db = some g) :
    (usuarios_similares db u g).length ≤ 5 ∧
    (∀ v ∈ usuarios_similares db u g, v ∈ db.usuarios ∧ v ≠ u ∧
      ∃ c ∈ db.calificaciones, c.usuario_id = v ∧ c.pelicula ∈ favoritas_genero db u g) ∧
    (∀ m, m ∈ candidatas_colab db u g (usuarios_similares db u g) ↔
      m ∈ db.peliculas ∧ (m, g) ∈ db.pelicula_generos ∧ m ∉ peliculas_vistas db u ∧
        ∃ c ∈ db.calificaciones, c.pelicula = m ∧
          c.usuario_id ∈ usuarios_similares db u g ∧ 7 ≤ c.puntuacion) ∧
    ∃ l : List Nat, l.Perm (candidatas_colab db u g (usuarios_similares db u g)) ∧
      l.Sorted (orden_colab db (usuarios_similares db u g)) ∧
      recomendaciones_colaborativas db u g limite = l.take (limite / 2) := by
  refine ⟨?_, ?_, fun m => mem_candidatas_colab, ?_⟩
  · unfold usuarios_similares
    rw [List.length_take]
    exact min_le_left _ _
  · intro v hv
    have hv1 : v ∈ db.usuarios.filter
        (fun v => !(decide (v = u)) && decide (1 ≤ coincidencias db u g v)) := by
      have := List.take_subset _ _ hv
      exact (List.perm_insertionSort _ _).mem_iff.mp this
    have hv2 := List.mem_filter.mp hv1
    simp only [Bool.and_eq_true, decide_eq_true_eq, Bool.not_eq_true',
      decide_eq_false_iff_not] at hv2
    refine ⟨hv2.1, hv2.2.1, ?_⟩
    obtain ⟨c, hc⟩ := List.length_pos_iff_exists_mem.mp hv2.2.2
    have hc2 := List.mem_filter.mp hc
    simp only [Bool.and_eq_true, decide_eq_true_eq] at hc2
    exact ⟨c, hc2.1, hc2.2.1, hc2.2.2⟩
  · refine ⟨List.insertionSort (rankLe (clave_colab db (usuarios_similares db u g)))
      (candidatas_colab db u g (usuarios_similares db u g)),
      List.perm_insertionSort _ _, ?_, rfl⟩
    have hs := List.sorted_insertionSort (rankLe (clave_colab db (usuarios_similares db u g)))
      (candidatas_colab db u g (usuarios_similares db u g))
    refine List.Pairwise.imp_of_mem ?_ hs
    intro a b hamem hbmem hr
    have ha := mem_candidatas_colab_len ((List.perm_insertionSort _ _).mem_iff.mp hamem)
    have hb := mem_candidatas_colab_len ((List.perm_insertionSort _ _).mem_iff.mp hbmem)
    exact (rankLe_iff_orden_colab ha hb).mp hr

/-- Claim C4 witness: in `dbPar` the similar-user list of user 1 has at
most five entries (it is `[2, 3]`). -/
theorem C4_pool_colaborativo_witness : (usuarios_similares dbPar 1 1).length ≤ 5 :=
  (C4_pool_colaborativo dbPar 1 12 1 (by decide)).1

/-- Claim C5: the returned sequence is exactly the concatenation of the
category pool and the collaborative pool de-duplicated by movie id keeping
first occurrences (the final truncation never removes anything, since each
pool holds at most `limite / 2` movies), and it contains no duplicates. -/
theorem C5_sin_duplicados (db : DB) (u limite g : Nat)
    (hg : genero_aventura_id db = some g) :
    obtener_recomendaciones_aventura db u limite =
      dedup_first_aux [] (recomendaciones_genero db u g limite ++
        recomendaciones_colaborativas db u g limite) ∧
    (obtener_recomendaciones_aventura db u limite).Nodup := by
  have hlen : (dedup_first_aux [] (recomendaciones_genero db u g limite ++
      recomendaciones_colaborativas db u g limite)).length ≤ limite := by
    refine le_trans (length_dedup_first_aux_le _ _) ?_
    rw [List.length_append]
    have h1 : (recomendaciones_genero db u g limite).length ≤ limite / 2 := by
      unfold recomendaciones_genero
      rw [List.length_take]
      exact min_le_left _ _
    have h2 : (recomendaciones_colaborativas db u g limite).length ≤ limite / 2 := by
      unfold recomendaciones_colaborativas
      rw [List.length_take]
      exact min_le_left _ _
    omega
  have heq : obtener_recomendaciones_aventura db u limite =
      dedup_first_aux [] (recomendaciones_genero db u g limite ++
        recomendaciones_colaborativas db u g limite) := by
    simp only [obtener_recomendaciones_aventura, hg]
    exact List.take_of_length_le hlen
  exact ⟨heq, heq ▸ nodup_dedup_first_aux _ _⟩

/-- Claim C5 witness: the concrete recommendation list of user 1 in
`dbDemo` equals the de-duplicated concatenation of its two pools and has
no duplicates. -/
theorem C5_sin_duplicados_witness :
    obtener_recomendaciones_aventura dbDemo 1 12 =
      dedup_first_aux [] (recomendaciones_genero dbDemo 1 1 12 ++
        recomendaciones_colaborativas dbDemo 1 1 12) ∧
    (obtener_recomendaciones_aventura dbDemo 1 12).Nodup :=
  C5_sin_duplicados dbDemo 1 12 1 (by decide)

/-- Claim C7: a rating request with a score outside `[1, 10]` is rejected
and leaves the state untouched; a score inside `[1, 10]` is persisted as
the rating value of the pair (user, movie). -/
theorem C7_rango_calificacion (db : DB) (u m : Nat) (p : Int) (hm : m ∈ db.peliculas) :
    (¬(1 ≤ p ∧ p ≤ 10) → agregar_calificacion db u m p = db) ∧
    ((1 ≤ p ∧ p ≤ 10) →
      (∃ c ∈ (agregar_calificacion db u m p).calificaciones,
        c.pelicula = m ∧ c.usuario_id = u ∧ c.puntuacion = p) ∧
      (∀ c ∈ (agregar_calificacion db u m p).calificaciones,
        c.pelicula = m → c.usuario_id = u → c.puntuacion = p)) := by
  constructor
  · intro hp
    unfold agregar_calificacion
    rw [if_pos hm, if_neg hp]
  · intro hp
    have hdb : (agregar_calificacion db u m p).calificaciones =
        update_or_create db.calificaciones m u p := by
      unfold agregar_calificacion
      rw [if_pos hm, if_pos hp]
    rw [hdb]
    unfold update_or_create
    by_cases hex : db.calificaciones.any
        (fun c => decide (c.pelicula = m) && decide (c.usuario_id = u)) = true
    · rw [if_pos hex]
      obtain ⟨c0, hc0mem, hc0p⟩ := List.any_eq_true.mp hex
      simp only [Bool.and_eq_true, decide_eq_true_eq] at hc0p
      constructor
      · refine ⟨{ c0 with puntuacion := p }, ?_, hc0p.1, hc0p.2, rfl⟩
        refine List.mem_map.mpr ⟨c0, hc0mem, ?_⟩
        rw [if_pos hc0p]
      · intro c hc hcm hcu
        obtain ⟨c', hc'mem, hc'eq⟩ := List.mem_map.mp hc
        by_cases hcond : c'.pelicula = m ∧ c'.usuario_id = u
        · rw [if_pos hcond] at hc'eq
          rw [← hc'eq]
        · rw [if_neg hcond] at hc'eq
          subst hc'eq
          exact absurd ⟨hcm, hcu⟩ hcond
    · rw [if_neg hex]
      constructor
      · refine ⟨⟨m, u, p⟩, List.mem_cons_self _ _, rfl, rfl, rfl⟩
      · intro c hc hcm hcu
        rcases List.mem_cons.mp hc with hc1 | hc1
        · rw [hc1]
        · have hfalse := List.any_eq_false.mp (Bool.not_eq_true _ ▸ hex) c hc1
          simp only [Bool.and_eq_true, decide_eq_true_eq] at hfalse
          exact absurd (And.intro hcm hcu) hfalse

/-- Claim C7 witness: in `dbDemo` the out-of-range score 0 for movie 10 by
user 1 is rejected and the state is unchanged. -/
theorem C7_rango_calificacion_witness : agregar_calificacion dbDemo 1 10 0 = dbDemo :=
  (C7_rango_calificacion dbDemo 1 10 0 (by decide)).1 (by decide)

/-- Filtering a key predicate after the in-place update of
`update_or_create` counts the same rows, since the update keeps the movie
and user of every record. -/
theorem length_filter_map_update (l : List Calificacion) (m u m' u' : Nat) (p : Int) :
    ((l.map (fun c =>
        if c.pelicula = m ∧ c.usuario_id = u then { c with puntuacion := p } else c)).filter
      (fun c => decide (c.pelicula = m') && decide (c.usuario_id = u'))).length =
    (l.filter (fun c => decide (c.pelicula = m') && decide (c.usuario_id = u'))).length := by
  induction l with
  | nil => rfl
  | cons a l ih =>
    rw [List.map_cons, List.filter_cons, List.filter_cons]
    have hkey : (decide ((if a.pelicula = m ∧ a.usuario_id = u then
        { a with puntuacion := p } else a).pelicula = m') &&
        decide ((if a.pelicula = m ∧ a.usuario_id = u then
        { a with puntuacion := p } else a).usuario_id = u')) =
        (decide (a.pelicula = m') && decide (a.usuario_id = u')) := by
      by_cases hcond : a.pelicula = m ∧ a.usuario_id = u
      · rw [if_pos hcond]
      · rw [if_neg hcond]
    rw [hkey]
    by_cases hpred : (decide (a.pelicula = m') && decide (a.usuario_id = u')) = true
    · rw [if_pos hpred, if_pos hpred]
      simp only [List.length_cons, ih]
    · rw [if_neg hpred, if_neg hpred]
      exact ih

/-- The pair (user, movie) has a rating row exactly when the existence
check of `update_or_create` succeeds. -/
theorem cuenta_par_pos_iff (db : DB) (u m : Nat) :
    1 ≤ cuenta_par db u m ↔
      db.calificaciones.any
        (fun c => decide (c.pelicula = m) && decide (c.usuario_id = u)) = true := by
  unfold cuenta_par
  rw [List.any_eq_true]
  constructor
  · intro h
    obtain ⟨c, hc⟩ := List.length_pos_iff_exists_mem.mp h
    exact ⟨c, (List.mem_filter.mp hc).1, (List.mem_filter.mp hc).2⟩
  · rintro ⟨c, hcm, hcp⟩
    exact List.length_pos_iff_exists_mem.mpr ⟨c, List.mem_filter.mpr ⟨hcm, hcp⟩⟩

/-- Claim C8: assuming the `unique_together` invariant — at most one rating
row per (user, movie) pair — submitting a rating preserves the invariant;
when the pair already has a rating and the score is valid, the row count of
the pair stays exactly 1 (the row is updated in place); and the favorites
and watch-later toggles never touch the rating table. -/
theorem C8_unicidad_calificacion (db : DB) (u m : Nat) (p : Int)
    (hinv : ∀ u' m', cuenta_par db u' m' ≤ 1) :
    (∀ u' m', cuenta_par (agregar_calificacion db u m p) u' m' ≤ 1) ∧
    (1 ≤ cuenta_par db u m → 1 ≤ p → p ≤ 10 → m ∈ db.peliculas →
      cuenta_par (agregar_calificacion db u m p) u m = 1) ∧
    (∀ u' m', (agregar_favoritos db u' m').calificaciones = db.calificaciones) ∧
    (∀ u' m', (agregar_ver_despues db u' m').calificaciones = db.calificaciones) := by
  have hfav : ∀ u' m', (agregar_favoritos db u' m').calificaciones = db.calificaciones := by
    intro u' m'
    unfold agregar_favoritos
    split
    · split <;> rfl
    · rfl
  have hvd : ∀ u' m', (agregar_ver_despues db u' m').calificaciones = db.calificaciones := by
    intro u' m'
    unfold agregar_ver_despues
    split
    · split <;> rfl
    · rfl
  have hcases : agregar_calificacion db u m p = db ∨
      (agregar_calificacion db u m p).calificaciones = update_or_create db.calificaciones m u p := by
    unfold agregar_calificacion
    by_cases h1 : m ∈ db.peliculas
    · rw [if_pos h1]
      by_cases h2 : 1 ≤ p ∧ p ≤ 10
      · rw [if_pos h2]; exact Or.inr rfl
      · rw [if_neg h2]; exact Or.inl rfl
    · rw [if_neg h1]; exact Or.inl rfl
  have hupdate : ∀ u' m',
      (db.calificaciones.any
        (fun c => decide (c.pelicula = m) && decide (c.usuario_id = u)) = true) →
      ((update_or_create db.calificaciones m u p).filter
        (fun c => decide (c.pelicula = m') && decide (c.usuario_id = u'))).length =
        cuenta_par db u' m' := by
    intro u' m' hex
    unfold update_or_create cuenta_par
    rw [if_pos hex]
    exact length_filter_map_update db.calificaciones m u m' u' p
  refine ⟨?_, ?_, hfav, hvd⟩
  · intro u' m'
    rcases hcases with h | h
    · rw [h]; exact hinv u' m'
    · unfold cuenta_par
      rw [h]
      by_cases hex : db.calificaciones.any
          (fun c => decide (c.pelicula = m) && decide (c.usuario_id = u)) = true
      · rw [show ((update_or_create db.calificaciones m u p).filter
            (fun c => decide (c.pelicula = m') && decide (c.usuario_id = u'))).length =
            cuenta_par db u' m' from hupdate u' m' hex]
        exact hinv u' m'
      · unfold update_or_create
        rw [if_neg hex]
        rw [List.filter_cons]
        by_cases hpair : (decide ((⟨m, u, p⟩ : Calificacion).pelicula = m') &&
            decide ((⟨m, u, p⟩ : Calificacion).usuario_id = u')) = true
        · rw [if_pos hpair]
          simp only [decide_eq_true_eq, Bool.and_eq_true] at hpair
          have hzero : cuenta_par db u m = 0 := by
            by_contra hne
            exact hex ((cuenta_par_pos_iff db u m).mp (by omega))
          have : cuenta_par db u' m' = 0 := by
            unfold cuenta_par at hzero ⊢
            rw [← hpair.1, ← hpair.2]
            exact hzero
          unfold cuenta_par at this
          rw [List.length_cons, this]
        · rw [if_neg hpair]
          exact hinv u' m'
  · intro hpos hp1 hp2 hm
    have hex := (cuenta_par_pos_iff db u m).mp hpos
    have h : (agregar_calificacion db u m p).calificaciones =
        update_or_create db.calificaciones m u p := by
      unfold agregar_calificacion
      rw [if_pos hm, if_pos ⟨hp1, hp2⟩]
    unfold cuenta_par
    rw [h, show ((update_or_create db.calificaciones m u p).filter
        (fun c => decide (c.pelicula = m) && decide (c.usuario_id = u))).length =
        cuenta_par db u m from hupdate u m hex]
    have := hinv u m
    omega

/-- Claim C8 witness: user 2 of `dbDemo` already rated movie 10; submitting
the new score 9 keeps the row count of the pair at exactly one. -/
theorem C8_unicidad_calificacion_witness :
    cuenta_par (agregar_calificacion dbDemo 2 10 9) 2 10 = 1 := by
  have hinv : ∀ u' m', cuenta_par dbDemo u' m' ≤ 1 := by
    intro u' m'
    have hrw : cuenta_par dbDemo u' m' =
        (List.filter (fun c => decide (c.pelicula = m') && decide (c.usuario_id = u'))
          [(⟨10, 2, 8⟩ : Calificacion), ⟨11, 2, 9⟩]).length := rfl
    rw [hrw, List.filter_cons, List.filter_cons, List.filter_nil]
    split_ifs with h1 h2 h2 <;> simp_all <;> omega
  exact (C8_unicidad_calificacion dbDemo 2 10 9 hinv).2.1
    (by decide) (by decide) (by decide) (by decide)

/-- Removing one occurrence of a present element from a duplicate-free list
shortens it by exactly one. -/
theorem length_filter_ne_nodup {v : Nat} :
    ∀ {l : List Nat}, l.Nodup → v ∈ l →
      (l.filter (fun x => decide (x ≠ v))).length + 1 = l.length := by
  intro l
  induction l with
  | nil => intro _ hv; cases hv
  | cons a l ih =>
    intro hnd hv
    obtain ⟨hanl, hndl⟩ := List.nodup_cons.mp hnd
    rcases List.mem_cons.mp hv with hva | hvl
    · have hda : ¬((fun x => decide (x ≠ v)) a = true) := by
        simp only [decide_eq_true_eq, not_not, ne_eq]
        exact hva.symm
      rw [@List.filter_cons_of_neg Nat (fun x => decide (x ≠ v)) a l hda]
      have hself : l.filter (fun x => decide (x ≠ v)) = l := by
        rw [List.filter_eq_self]
        intro b hb
        simp only [decide_eq_true_eq]
        intro hbv
        apply hanl
        rw [← hva, ← hbv]
        exact hb
      rw [hself, List.length_cons]
    · have hav : ((fun x => decide (x ≠ v)) a = true) := by
        simp only [decide_eq_true_eq]
        intro h
        exact hanl (h ▸ hvl)
      rw [@List.filter_cons_of_pos Nat (fun x => decide (x ≠ v)) a l hav]
      have hih := ih hndl hvl
      simp only [List.length_cons]
      omega

/-- Claim C9: a full watch party rejects join attempts unchanged; a join
never pushes the participant count past `max_participantes`; when a
participant of a full party leaves, `puede_unirse` becomes true again; and
a join into a non-full party adds the requester to the participant set. -/
theorem C9_capacidad_watch_party (wp : WatchParty) (u v : Nat)
    (hnd : wp.participantes.Nodup) :
    (puede_unirse wp = false → unirse_watch_party wp u = wp) ∧
    (wp.participantes.length ≤ wp.max_participantes →
      (unirse_watch_party wp u).participantes.length ≤ wp.max_participantes) ∧
    (wp.participantes.length = wp.max_participantes → v ∈ wp.participantes →
      puede_unirse (salir_watch_party wp v) = true) ∧
    (puede_unirse wp = true → u ∉ wp.participantes →
      (unirse_watch_party wp u).participantes = u :: wp.participantes) := by
  refine ⟨?_, ?_, ?_, ?_⟩
  · intro h
    unfold unirse_watch_party
    rw [h]
    rfl
  · intro hle
    unfold unirse_watch_party
    by_cases hb : puede_unirse wp = true
    · rw [hb]
      simp only [if_true]
      by_cases hu : u ∈ wp.participantes
      · rw [if_pos hu]
        exact hle
      · rw [if_neg hu]
        have hlt : wp.participantes.length < wp.max_participantes := by
          have := hb
          unfold puede_unirse at this
          exact of_decide_eq_true this
        simpa using hlt
    · rw [Bool.not_eq_true] at hb
      rw [hb]
      simpa using hle
  · intro hlen hv
    unfold salir_watch_party
    rw [if_pos hv]
    unfold puede_unirse
    simp only [decide_eq_true_eq]
    have hone := length_filter_ne_nodup hnd hv
    have hpos := List.length_pos_of_mem hv
    show (wp.participantes.filter (fun x => decide (x ≠ v))).length < wp.max_participantes
    omega
  · intro hb hu
    unfold unirse_watch_party
    rw [hb]
    simp only [if_true]
    rw [if_neg hu]

/-- Claim C9 witness: the party `wpDemo` is full, so user 4 cannot join,
while after participant 2 leaves there is room again. -/
theorem C9_capacidad_watch_party_witness :
    unirse_watch_party wpDemo 4 = wpDemo ∧
      puede_unirse (salir_watch_party wpDemo 2) = true :=
  ⟨(C9_capacidad_watch_party wpDemo 4 2 (by decide)).1 (by decide),
    (C9_capacidad_watch_party wpDemo 4 2 (by decide)).2.2.1 (by decide) (by decide)⟩

/-- Membership in the toggled pair list, stated for the filter branch. -/
theorem mem_filter_ne_pair {l : List (Nat × Nat)} {q r : Nat × Nat} :
    r ∈ l.filter (fun f => decide (f ≠ q)) ↔ r ∈ l ∧ r ≠ q := by
  rw [List.mem_filter]
  simp

/-- The membership behaviour of one toggle step (the shared shape of
`agregar_favoritos` and `agregar_ver_despues` on their pair list): one
invocation flips membership of the toggled pair, leaves every other pair
alone, and two invocations restore the membership of every pair. -/
theorem toggle_pares (l : List (Nat × Nat)) (q : Nat × Nat) :
    ((q ∉ l → q ∈ toggle_par l q) ∧ (q ∈ l → q ∉ toggle_par l q)) ∧
    (∀ r, r ≠ q → (r ∈ toggle_par l q ↔ r ∈ l)) ∧
    (∀ r, r ∈ toggle_par (toggle_par l q) q ↔ r ∈ l) := by
  by_cases hq : q ∈ l
  · have h1 : toggle_par l q = l.filter (fun f => decide (f ≠ q)) := if_pos hq
    have hq1 : q ∉ toggle_par l q := by
      rw [h1]
      intro hc
      exact absurd rfl (mem_filter_ne_pair.mp hc).2
    refine ⟨⟨fun h => absurd hq h, fun _ => hq1⟩, ?_, ?_⟩
    · intro r hr
      rw [h1, mem_filter_ne_pair]
      exact ⟨fun h => h.1, fun h => ⟨h, hr⟩⟩
    · intro r
      have h2 : toggle_par (toggle_par l q) q = q :: toggle_par l q := if_neg hq1
      rw [h2, List.mem_cons, h1, mem_filter_ne_pair]
      constructor
      · rintro (rfl | ⟨h, _⟩)
        · exact hq
        · exact h
      · intro hr
        by_cases hrq : r = q
        · exact Or.inl hrq
        · exact Or.inr ⟨hr, hrq⟩
  · have h1 : toggle_par l q = q :: l := if_neg hq
    refine ⟨⟨fun _ => h1 ▸ List.mem_cons_self q l, fun h => absurd h hq⟩, ?_, ?_⟩
    · intro r hr
      rw [h1, List.mem_cons]
      exact ⟨fun h => h.resolve_left hr, fun h => Or.inr h⟩
    · intro r
      have h2 : toggle_par (toggle_par l q) q =
          (toggle_par l q).filter (fun f => decide (f ≠ q)) :=
        if_pos (h1 ▸ List.mem_cons_self q l)
      rw [h2, mem_filter_ne_pair, h1, List.mem_cons]
      constructor
      · rintro ⟨rfl | hr, hrq⟩
        · exact absurd rfl hrq
        · exact hr
      · intro hr
        have hrq : r ≠ q := fun h => hq (h ▸ hr)
        exact ⟨Or.inr hr, hrq⟩

/-- The favorites toggle only rewrites the favorites list. -/
theorem agregar_favoritos_favoritos (db : DB) (u m : Nat) (hm : m ∈ db.peliculas) :
    (agregar_favoritos db u m).favoritos = toggle_par db.favoritos (u, m) ∧
    (agregar_favoritos db u m).peliculas = db.peliculas ∧
    (agregar_favoritos db u m).ver_despues = db.ver_despues := by
  unfold agregar_favoritos toggle_par
  rw [if_pos hm]
  split <;> exact ⟨rfl, rfl, rfl⟩

/-- The watch-later toggle only rewrites the watch-later list. -/
theorem agregar_ver_despues_lista (db : DB) (u m : Nat) (hm : m ∈ db.peliculas) :
    (agregar_ver_despues db u m).ver_despues = toggle_par db.ver_despues (u, m) ∧
    (agregar_ver_despues db u m).peliculas = db.peliculas ∧
    (agregar_ver_despues db u m).favoritos = db.favoritos := by
  unfold agregar_ver_despues toggle_par
  rw [if_pos hm]
  split <;> exact ⟨rfl, rfl, rfl⟩

/-- Claim C10: for an existing movie the favorites toggle adds the pair
when absent and removes it when present, changes the membership of no
other pair, and applied twice restores the membership of every pair; the
watch-later toggle behaves the same way on its list. -/
theorem C10_toggle_involutivo (db : DB) (u m : Nat) (hm : m ∈ db.peliculas) :
    (((u, m) ∉ db.favoritos → (u, m) ∈ (agregar_favoritos db u m).favoritos) ∧
     ((u, m) ∈ db.favoritos → (u, m) ∉ (agregar_favoritos db u m).favoritos) ∧
     (∀ q, q ≠ (u, m) → (q ∈ (agregar_favoritos db u m).favoritos ↔ q ∈ db.favoritos)) ∧
     (∀ q, q ∈ (agregar_favoritos (agregar_favoritos db u m) u m).favoritos ↔
        q ∈ db.favoritos)) ∧
    (((u, m) ∉ db.ver_despues → (u, m) ∈ (agregar_ver_despues db u m).ver_despues) ∧
     ((u, m) ∈ db.ver_despues → (u, m) ∉ (agregar_ver_despues db u m).ver_despues) ∧
     (∀ q, q ≠ (u, m) → (q ∈ (agregar_ver_despues db u m).ver_despues ↔ q ∈ db.ver_despues)) ∧
     (∀ q, q ∈ (agregar_ver_despues (agregar_ver_despues db u m) u m).ver_despues ↔
        q ∈ db.ver_despues)) := by
  obtain ⟨hf1, hf2, _⟩ := agregar_favoritos_favoritos db u m hm
  have hm2 : m ∈ (agregar_favoritos db u m).peliculas := hf2 ▸ hm
  obtain ⟨hff1, _, _⟩ := agregar_favoritos_favoritos (agregar_favoritos db u m) u m hm2
  obtain ⟨hv1, hv2, _⟩ := agregar_ver_despues_lista db u m hm
  have hm3 : m ∈ (agregar_ver_despues db u m).peliculas := hv2 ▸ hm
  obtain ⟨hvv1, _, _⟩ := agregar_ver_despues_lista (agregar_ver_despues db u m) u m hm3
  obtain ⟨⟨tf1, tf2⟩, tf3, tf4⟩ := toggle_pares db.favoritos (u, m)
  obtain ⟨⟨tv1, tv2⟩, tv3, tv4⟩ := toggle_pares db.ver_despues (u, m)
  constructor
  · refine ⟨fun h => hf1 ▸ tf1 h, fun h => hf1 ▸ tf2 h, fun q hq => hf1 ▸ tf3 q hq, ?_⟩
    intro q
    rw [hff1, hf1]
    exact tf4 q
  · refine ⟨fun h => hv1 ▸ tv1 h, fun h => hv1 ▸ tv2 h, fun q hq => hv1 ▸ tv3 q hq, ?_⟩
    intro q
    rw [hvv1, hv1]
    exact tv4 q

/-- Claim C10 witness: in `dbDemo` (movie 10 exists, user 1 has no
favorites) one favorites toggle adds the pair (1, 10). -/
theorem C10_toggle_involutivo_witness : (1, 10) ∈ (agregar_favoritos dbDemo 1 10).favoritos :=
  (C10_toggle_involutivo dbDemo 1 10 (by decide)).1.1 (by decide)

end CineAventura
